import Mathlib

/-!
Shallow embedding of the trading bot core from `bot.py`:
the indicator engine (`calculate_indicators`), the signal generator
(`generate_signals`), the position manager (`manage_position`) and one
iteration of the strategy orchestrator (`run_strategy`).

Prices are modelled as rationals.  A pandas `NaN` cell is modelled as
`none` in an `Option ℚ`; Python float comparisons against `NaN` are all
false, which the `oLt`/`oLe`/`oGt`/`oGe` helpers reproduce.
-/

/-- Trading signal, the three string constants of `generate_signals`. -/
inductive Sig where
  | BUY
  | SELL
  | HOLD
deriving DecidableEq, Repr

/-- Order side, the `'buy'` / `'sell'` strings of the source. -/
inductive Side where
  | buy
  | sell
deriving DecidableEq, Repr

/-- One row of the indicator dataframe, as read by `generate_signals`.
Columns that can be `NaN` during warm-up are `Option ℚ`; the MACD
columns come from `ewm` with default `min_periods` and are always
defined. -/
structure IndRow where
  close : ℚ
  ma_short : Option ℚ
  ma_long : Option ℚ
  rsi : Option ℚ
  bb_lower : Option ℚ
  bb_upper : Option ℚ
  macd : ℚ
  macd_signal : ℚ
deriving DecidableEq, Repr

/-- The bot's configuration attributes set in `__init__`. -/
structure Params where
  ma_short : ℕ
  ma_long : ℕ
  rsi_period : ℕ
  rsi_oversold : ℚ
  rsi_overbought : ℚ
  stop_loss_pct : ℚ
  take_profit_pct : ℚ
  trade_amount : ℚ
deriving DecidableEq, Repr

/-- Default parameter values from `__init__`. -/
def P0 : Params :=
  { ma_short := 10, ma_long := 20, rsi_period := 14,
    rsi_oversold := 30, rsi_overbought := 70,
    stop_loss_pct := 2/100, take_profit_pct := 4/100,
    trade_amount := 1/1000 }

/-- Python `x < y` on floats where either side may be `NaN`: any
comparison with `NaN` is false. -/
def oLt (x y : Option ℚ) : Bool :=
  match x, y with
  | some a, some b => decide (a < b)
  | _, _ => false

/-- Python `x <= y` with `NaN` compared false. -/
def oLe (x y : Option ℚ) : Bool :=
  match x, y with
  | some a, some b => decide (a ≤ b)
  | _, _ => false

/-- Python `x > y` with `NaN` compared false. -/
def oGt (x y : Option ℚ) : Bool := oLt y x

/-- Python `x >= y` with `NaN` compared false. -/
def oGe (x y : Option ℚ) : Bool := oLe y x

/-- Sub-signal 1 of `generate_signals` (MA crossover): the pair of
(buy, sell) votes it contributes, mirroring the `if`/`elif`. -/
def maVotes (latest previous : IndRow) : ℕ × ℕ :=
  if oGt latest.ma_short latest.ma_long && oLe previous.ma_short previous.ma_long then (1, 0)
  else if oLt latest.ma_short latest.ma_long && oGe previous.ma_short previous.ma_long then (0, 1)
  else (0, 0)

/-- Sub-signal 2 of `generate_signals` (RSI thresholds). -/
def rsiVotes (P : Params) (latest : IndRow) : ℕ × ℕ :=
  if oLt latest.rsi (some P.rsi_oversold) then (1, 0)
  else if oGt latest.rsi (some P.rsi_overbought) then (0, 1)
  else (0, 0)

/-- Sub-signal 3 of `generate_signals` (MACD crossover); the MACD
columns are always defined, so these are plain comparisons. -/
def macdVotes (latest previous : IndRow) : ℕ × ℕ :=
  if latest.macd_signal < latest.macd ∧ previous.macd ≤ previous.macd_signal then (1, 0)
  else if latest.macd < latest.macd_signal ∧ previous.macd_signal ≤ previous.macd then (0, 1)
  else (0, 0)

/-- Sub-signal 4 of `generate_signals` (Bollinger breakout). -/
def bbVotes (latest : IndRow) : ℕ × ℕ :=
  if oLt (some latest.close) latest.bb_lower then (1, 0)
  else if oGt (some latest.close) latest.bb_upper then (0, 1)
  else (0, 0)

/-- The `buy_signals` counter of `generate_signals`. -/
def buyVotes (P : Params) (latest previous : IndRow) : ℕ :=
  (maVotes latest previous).1 + (rsiVotes P latest).1 +
    (macdVotes latest previous).1 + (bbVotes latest).1

/-- The `sell_signals` counter of `generate_signals`. -/
def sellVotes (P : Params) (latest previous : IndRow) : ℕ :=
  (maVotes latest previous).2 + (rsiVotes P latest).2 +
    (macdVotes latest previous).2 + (bbVotes latest).2

/-- The final decision block of `generate_signals`. -/
def decision (P : Params) (latest previous : IndRow) : Sig :=
  if 2 ≤ buyVotes P latest previous ∧ sellVotes P latest previous = 0 then Sig.BUY
  else if 2 ≤ sellVotes P latest previous ∧ buyVotes P latest previous = 0 then Sig.SELL
  else Sig.HOLD

/-- The whole of `generate_signals`: early HOLD on insufficient warm-up,
then the vote on the last two rows (`df.iloc[-1]`, `df.iloc[-2]`).
`none` models the uncaught `IndexError` when the frame is too short for
`iloc[-2]`, which in `run_strategy` is swallowed by the outer `except`. -/
def generate_signals (P : Params) (df : List IndRow) : Option Sig :=
  if df.length < max P.ma_long P.rsi_period then some Sig.HOLD
  else
    match df.getLast?, df.dropLast.getLast? with
    | some latest, some previous => some (decision P latest previous)
    | _, _ => none

/-- The open-position dict kept in `self.position`. -/
structure Position where
  side : Side
  amount : ℚ
  entry_price : ℚ
  timestamp : ℕ
deriving DecidableEq, Repr

/-- Which branch of `manage_position` fired, recording that the
stop-loss test is evaluated before the take-profit test. -/
inductive Trigger where
  | stopLoss
  | takeProfit
deriving DecidableEq, Repr

/-- The position manager `manage_position`.  `closeOk` is the truthiness
of the dict `place_order` would return for the closing order; the source
discards that return value, so the result does not depend on it.
Returns the new `self.position`, the orders requested, and which
threshold fired. -/
def manage_position (sl tp : ℚ) (closeOk : Bool) (pos : Option Position) (price : ℚ) :
    Option Position × List (Side × ℚ) × Option Trigger :=
  match pos with
  | none => (none, [], none)
  | some p =>
    match p.side with
    | Side.buy =>
      if price ≤ p.entry_price * (1 - sl) then
        (none, [(Side.sell, p.amount)], some Trigger.stopLoss)
      else if p.entry_price * (1 + tp) ≤ price then
        (none, [(Side.sell, p.amount)], some Trigger.takeProfit)
      else (some p, [], none)
    | Side.sell =>
      if p.entry_price * (1 + sl) ≤ price then
        (none, [(Side.buy, p.amount)], some Trigger.stopLoss)
      else if price ≤ p.entry_price * (1 - tp) then
        (none, [(Side.buy, p.amount)], some Trigger.takeProfit)
      else (some p, [], none)

/-- An order confirmation dict returned by a successful `place_order`;
it carries the exchange's fill price.  A failed `place_order` returns
the empty dict, modelled as `none`. -/
structure OrderConf where
  price : ℚ
deriving DecidableEq, Repr

/-- The bot's mutable cross-cycle state (`self.position`,
`self.last_signal`). -/
structure BotState where
  position : Option Position
  last_signal : Option Sig
deriving DecidableEq, Repr

/-- The position `run_strategy` stores after requesting an entry order:
`self.position` is set only `if order:` (the confirmation dict is
truthy), and the recorded entry price is the current price — the close
of the last fetched candle — not the confirmation's fill price. -/
def entryPos (P : Params) (side : Side) (price : ℚ) (now : ℕ)
    (entryOrder : Option OrderConf) : Option Position :=
  match entryOrder with
  | some _ => some { side := side, amount := P.trade_amount,
                     entry_price := price, timestamp := now }
  | none => none

/-- One iteration of `run_strategy`, given the already-enriched
indicator frame.  `entryOrder` is the result `place_order` would return
for the entry order this cycle (`none` = empty dict, falsy); `closeOk`
is the (discarded) truthiness of a closing order's result; `now` is the
entry timestamp.  Returns the new state and the orders requested, in
order. -/
def run_strategy (P : Params) (s : BotState) (frame : List IndRow)
    (entryOrder : Option OrderConf) (closeOk : Bool) (now : ℕ) :
    BotState × List (Side × ℚ) :=
  match frame.getLast? with
  | none => (s, [])
  | some lastRow =>
    match manage_position P.stop_loss_pct P.take_profit_pct closeOk s.position lastRow.close with
    | (some p, orders1, _) => ({ position := some p, last_signal := s.last_signal }, orders1)
    | (none, orders1, _) =>
      match generate_signals P frame with
      | none => ({ position := none, last_signal := s.last_signal }, orders1)
      | some sig =>
        if sig = Sig.BUY ∧ s.last_signal ≠ some Sig.BUY then
          ({ position := entryPos P Side.buy lastRow.close now entryOrder,
             last_signal := some Sig.BUY },
           orders1 ++ [(Side.buy, P.trade_amount)])
        else if sig = Sig.SELL ∧ s.last_signal ≠ some Sig.SELL then
          ({ position := entryPos P Side.sell lastRow.close now entryOrder,
             last_signal := some Sig.SELL },
           orders1 ++ [(Side.sell, P.trade_amount)])
        else if sig = Sig.HOLD then
          ({ position := none, last_signal := some Sig.HOLD }, orders1)
        else
          ({ position := none, last_signal := s.last_signal }, orders1)

/-!
Indicator engine.  Each pandas column is modelled as a list with one
entry per input candle; entry `i` is computed by a kernel applied to the
prefix of the close series ending at `i`, which is exactly the data a
causal rolling computation may read.
-/

/-- Apply a per-prefix kernel at every index: entry `i` of the result is
`f` on the first `i + 1` closes. -/
def causalMap {α : Type} (f : List ℚ → α) (xs : List ℚ) : List α :=
  (List.range xs.length).map (fun i => f (xs.take (i + 1)))

/-- Rolling mean kernel (`rolling(window=w).mean()` at the last index of
the prefix `p`): `NaN` (`none`) until the window is full. -/
def rollingMeanK (w : ℕ) (p : List ℚ) : Option ℚ :=
  if p.length < w then none
  else some ((p.drop (p.length - w)).sum / (w : ℚ))

/-- Per-step price deltas, `close.diff()` without its leading `NaN`. -/
def deltas (xs : List ℚ) : List ℚ :=
  List.zipWith (fun a b => a - b) (xs.drop 1) xs

/-- The `gain` series: `delta.where(delta > 0, 0)`.  The leading `NaN`
of `diff` compares false against `0`, so `where` replaces it by `0`. -/
def gainSeries (xs : List ℚ) : List ℚ :=
  match xs with
  | [] => []
  | _ :: _ => 0 :: (deltas xs).map (fun d => if 0 < d then d else 0)

/-- The `loss` series: `-(delta.where(delta < 0, 0))`. -/
def lossSeries (xs : List ℚ) : List ℚ :=
  match xs with
  | [] => []
  | _ :: _ => 0 :: (deltas xs).map (fun d => if d < 0 then -d else 0)

/-- RSI kernel at the last index of the prefix `p`, following the float
semantics of `rs = gain / loss; rsi = 100 - 100 / (1 + rs)`:
`NaN` during warm-up; when the rolling loss is zero, `rs` is `inf`
(giving exactly `100`) if the rolling gain is positive and `NaN`
(giving `NaN`) if it is zero. -/
def rsiK (period : ℕ) (p : List ℚ) : Option ℚ :=
  if p.length < period then none
  else
    let g := ((gainSeries p).drop (p.length - period)).sum / (period : ℚ)
    let l := ((lossSeries p).drop (p.length - period)).sum / (period : ℚ)
    if l = 0 then (if g = 0 then none else some 100)
    else some (100 - 100 / (1 + g / l))

/-- Kernel of `ewm(span=span).mean()` at the last index of the prefix
`p`.  Pandas' default `adjust=True` takes the weighted average of the
whole prefix with weights `(1 - alpha) ^ distance`, `alpha = 2/(span+1)`. -/
def ewmK (span : ℕ) (p : List ℚ) : ℚ :=
  let a : ℚ := 2 / ((span : ℚ) + 1)
  let w := (List.range p.length).map (fun j => (1 - a) ^ (p.length - 1 - j))
  (List.zipWith (fun u v => u * v) w p).sum / w.sum

/-- The full `ewm(span=span).mean()` column. -/
def ema (span : ℕ) (xs : List ℚ) : List ℚ :=
  causalMap (ewmK span) xs

/-- The `macd` column: elementwise `ema 12 - ema 26`. -/
def macdCol (xs : List ℚ) : List ℚ :=
  List.zipWith (fun u v => u - v) (ema 12 xs) (ema 26 xs)

/-- The `macd_signal` column: `ewm(span=9)` of the MACD column. -/
def macdSignalCol (xs : List ℚ) : List ℚ :=
  ema 9 (macdCol xs)

/-- The `macd_histogram` column. -/
def macdHistCol (xs : List ℚ) : List ℚ :=
  List.zipWith (fun u v => u - v) (macdCol xs) (macdSignalCol xs)

/-- Rolling sample variance over a window of 20 (pandas `std` uses
`ddof=1`, so the divisor is 19), `NaN` until the window is full. -/
def bbVarK (p : List ℚ) : Option ℚ :=
  if p.length < 20 then none
  else
    let q := p.drop (p.length - 20)
    let m := q.sum / 20
    some ((q.map (fun x => (x - m) ^ 2)).sum / 19)

/-- Rolling standard deviation kernel.  Exact square roots do not exist
in ℚ, so the square root applied to the rolling variance is an abstract
parameter `sq`; every theorem below holds for all `sq`. -/
def bbStdK (sq : ℚ → ℚ) (p : List ℚ) : Option ℚ :=
  (bbVarK p).map sq

/-- Elementwise `middle + std * 2` with `NaN` propagation. -/
def bbShift (c : ℚ) (m s : Option ℚ) : Option ℚ :=
  match m, s with
  | some m, some s => some (m + s * c)
  | _, _ => none

/-- The indicator columns added by `calculate_indicators`, one list per
dataframe column, aligned with the input closes. -/
structure Indicators where
  ma_short : List (Option ℚ)
  ma_long : List (Option ℚ)
  rsi : List (Option ℚ)
  macd : List ℚ
  macd_signal : List ℚ
  macd_histogram : List ℚ
  bb_middle : List (Option ℚ)
  bb_upper : List (Option ℚ)
  bb_lower : List (Option ℚ)
deriving DecidableEq, Repr

/-- The indicator engine `calculate_indicators` on the close series.
`sq` abstracts the floating square root used inside the Bollinger
standard deviation. -/
def calculate_indicators (sq : ℚ → ℚ) (P : Params) (close : List ℚ) : Indicators :=
  let middle := causalMap (rollingMeanK 20) close
  let bstd := causalMap (bbStdK sq) close
  { ma_short := causalMap (rollingMeanK P.ma_short) close
    ma_long := causalMap (rollingMeanK P.ma_long) close
    rsi := causalMap (rsiK P.rsi_period) close
    macd := macdCol close
    macd_signal := macdSignalCol close
    macd_histogram := macdHistCol close
    bb_middle := middle
    bb_upper := List.zipWith (bbShift 2) middle bstd
    bb_lower := List.zipWith (bbShift (-2)) middle bstd }

/-- Modelled from the spec: the standard recursive EMA smoothing,
seeded from the first available value.  Auxiliary recursion carrying the
previous smoothed value. -/
def emaRecAux (a : ℚ) (y : ℚ) : List ℚ → List ℚ
  | [] => []
  | x :: rest => ((1 - a) * y + a * x) :: emaRecAux a ((1 - a) * y + a * x) rest

/-- Modelled from the spec: `EMA` with smoothing factor
`alpha = 2 / (span + 1)`, seeded from the first available value. -/
def emaRecursive (span : ℕ) (xs : List ℚ) : List ℚ :=
  match xs with
  | [] => []
  | x :: rest => x :: emaRecAux (2 / ((span : ℚ) + 1)) x rest

/-- Modelled from the spec as amended: the pandas `adjust=True`
exponentially weighted mean at index `i`, the weighted average of the
first `i + 1` values with weights `(1 - alpha) ^ (i - j)`. -/
def adjEma (span : ℕ) (ys : List ℚ) (i : ℕ) : ℚ :=
  (∑ j ∈ Finset.range (i + 1), (1 - 2 / ((span : ℚ) + 1)) ^ (i - j) * ys.getD j 0) /
    (∑ j ∈ Finset.range (i + 1), (1 - 2 / ((span : ℚ) + 1)) ^ (i - j))

/-- An indicator row with every optional column still `NaN` and both
MACD columns zero. -/
def rowZero : IndRow :=
  { close := 0, ma_short := none, ma_long := none, rsi := none,
    bb_lower := none, bb_upper := none, macd := 0, macd_signal := 0 }

/-- An indicator row voting BUY twice: RSI 20 is below the oversold
threshold 30, and the close 1 is below the lower Bollinger band 2. -/
def rowBuy : IndRow :=
  { close := 1, ma_short := none, ma_long := none, rsi := some 20,
    bb_lower := some 2, bb_upper := some 3, macd := 0, macd_signal := 0 }

/-- The order side an entry signal opens. -/
def sideOf : Sig → Side
  | Sig.BUY => Side.buy
  | _ => Side.sell

/-!
Helper lemmas about `causalMap` and list plumbing.
-/

/-- A `causalMap` column has one entry per input candle. -/
lemma length_causalMap {α : Type} (f : List ℚ → α) (xs : List ℚ) :
    (causalMap f xs).length = xs.length := by
  simp [causalMap]

/-- Entry `i` of a `causalMap` column is the kernel on the prefix ending
at `i`. -/
lemma causalMap_getElem? {α : Type} (f : List ℚ → α) (xs : List ℚ) (i : ℕ)
    (h : i < xs.length) :
    (causalMap f xs)[i]? = some (f (xs.take (i + 1))) := by
  simp [causalMap, List.getElem?_map, List.getElem?_range h]

/-- Computing a `causalMap` column on a prefix of the series gives the
prefix of the column: rolling computations never look ahead. -/
lemma causalMap_take {α : Type} (f : List ℚ → α) (xs : List ℚ) (k : ℕ) :
    causalMap f (xs.take k) = (causalMap f xs).take k := by
  unfold causalMap
  rw [List.length_take, ← List.map_take, List.take_range]
  apply List.map_congr_left
  intro i hi
  rw [List.mem_range] at hi
  have h1 : i + 1 ≤ k := Nat.succ_le_of_lt (lt_of_lt_of_le hi inf_le_left)
  rw [List.take_take, inf_eq_left.mpr h1]

/-- The MACD column is causal. -/
lemma macdCol_take (xs : List ℚ) (k : ℕ) :
    macdCol (xs.take k) = (macdCol xs).take k := by
  unfold macdCol ema
  rw [causalMap_take, causalMap_take, ← List.take_zipWith]

/-- The MACD signal column is causal. -/
lemma macdSignalCol_take (xs : List ℚ) (k : ℕ) :
    macdSignalCol (xs.take k) = (macdSignalCol xs).take k := by
  unfold macdSignalCol ema
  rw [macdCol_take, causalMap_take]

/-- The MACD histogram column is causal. -/
lemma macdHistCol_take (xs : List ℚ) (k : ℕ) :
    macdHistCol (xs.take k) = (macdHistCol xs).take k := by
  unfold macdHistCol
  rw [macdCol_take, macdSignalCol_take, ← List.take_zipWith]

/-- The last two rows of a frame ending in `[a, b]`. -/
lemma last_two_of_append (ys : List IndRow) (a b : IndRow) :
    (ys ++ [a, b]).getLast? = some b ∧ (ys ++ [a, b]).dropLast.getLast? = some a := by
  have h : ys ++ [a, b] = (ys ++ [a]) ++ [b] := by simp
  rw [h, List.getLast?_concat, List.dropLast_concat, List.getLast?_concat]
  exact ⟨rfl, rfl⟩

/-- C7: the Indicator Engine performs no look-ahead.  Computing the
indicator columns on any prefix of the close series yields exactly the
prefix of the columns computed on the full series, for every column and
every abstract square root `sq`; hence entry `i` of any column depends
only on candles at indices at most `i`. -/
theorem indicators_no_lookahead (sq : ℚ → ℚ) (P : Params) (xs : List ℚ) (k : ℕ) :
    (calculate_indicators sq P (xs.take k)).ma_short
        = ((calculate_indicators sq P xs).ma_short).take k ∧
    (calculate_indicators sq P (xs.take k)).ma_long
        = ((calculate_indicators sq P xs).ma_long).take k ∧
    (calculate_indicators sq P (xs.take k)).rsi
        = ((calculate_indicators sq P xs).rsi).take k ∧
    (calculate_indicators sq P (xs.take k)).macd
        = ((calculate_indicators sq P xs).macd).take k ∧
    (calculate_indicators sq P (xs.take k)).macd_signal
        = ((calculate_indicators sq P xs).macd_signal).take k ∧
    (calculate_indicators sq P (xs.take k)).macd_histogram
        = ((calculate_indicators sq P xs).macd_histogram).take k ∧
    (calculate_indicators sq P (xs.take k)).bb_middle
        = ((calculate_indicators sq P xs).bb_middle).take k ∧
    (calculate_indicators sq P (xs.take k)).bb_upper
        = ((calculate_indicators sq P xs).bb_upper).take k ∧
    (calculate_indicators sq P (xs.take k)).bb_lower
        = ((calculate_indicators sq P xs).bb_lower).take k := by
  simp only [calculate_indicators]
  refine ⟨causalMap_take _ _ _, causalMap_take _ _ _, causalMap_take _ _ _,
    macdCol_take _ _, macdSignalCol_take _ _, macdHistCol_take _ _,
    causalMap_take _ _ _, ?_, ?_⟩
  · rw [causalMap_take, causalMap_take, ← List.take_zipWith]
  · rw [causalMap_take, causalMap_take, ← List.take_zipWith]

/-!
The EMA semantics of the MACD block.  The spec claims the recursive,
first-value-seeded EMA; the source calls pandas `ewm` with its default
`adjust=True`, which is the finite weighted average instead.
-/

/-- Sum of a function mapped over `List.range` as a `Finset` sum. -/
lemma sum_map_range (f : ℕ → ℚ) (n : ℕ) :
    ((List.range n).map f).sum = ∑ j ∈ Finset.range n, f j := by
  induction n with
  | zero => rfl
  | succ n ih => rw [List.sum_range_succ, Finset.sum_range_succ, ih]

/-- Dot product of a weight table over `List.range` with a list, as a
`Finset` sum over the list entries. -/
lemma zipWith_mul_map_range_sum (f : ℕ → ℚ) (p : List ℚ) :
    (List.zipWith (fun u v => u * v) ((List.range p.length).map f) p).sum
      = ∑ j ∈ Finset.range p.length, f j * p.getD j 0 := by
  induction p generalizing f with
  | nil => simp
  | cons x rest ih =>
    rw [List.length_cons, List.range_succ_eq_map, List.map_cons, List.map_map,
      List.zipWith_cons_cons, List.sum_cons, Finset.sum_range_succ']
    rw [ih (f ∘ Nat.succ)]
    simp [Function.comp, add_comm]

/-- Entries of a prefix agree with entries of the series. -/
lemma getD_take (xs : List ℚ) (k j : ℕ) (h : j < k) :
    (xs.take k).getD j 0 = xs.getD j 0 := by
  rw [List.getD_eq_getElem?_getD, List.getD_eq_getElem?_getD, List.getElem?_take, if_pos h]

/-- The `ewm` kernel on the prefix ending at `i` is exactly the
`adjust=True` weighted average of the first `i + 1` values. -/
lemma ewmK_eq_adjEma (span : ℕ) (xs : List ℚ) (i : ℕ) (h : i < xs.length) :
    ewmK span (xs.take (i + 1)) = adjEma span xs i := by
  have hlen : (xs.take (i + 1)).length = i + 1 := by
    rw [List.length_take, inf_eq_left.mpr (Nat.succ_le_of_lt h)]
  have e1 := zipWith_mul_map_range_sum
    (fun j => (1 - 2 / ((span : ℚ) + 1)) ^ ((xs.take (i + 1)).length - 1 - j)) (xs.take (i + 1))
  have e2 := sum_map_range
    (fun j => (1 - 2 / ((span : ℚ) + 1)) ^ ((xs.take (i + 1)).length - 1 - j))
    (xs.take (i + 1)).length
  simp only [ewmK, adjEma]
  rw [e1, e2, hlen, Nat.add_sub_cancel]
  congr 1
  apply Finset.sum_congr rfl
  intro j hj
  rw [Finset.mem_range] at hj
  rw [getD_take xs (i + 1) j hj]

/-- Entrywise reading of `zipWith` under `getD`, inside both lengths. -/
lemma getD_zipWith (f : ℚ → ℚ → ℚ) (as bs : List ℚ) (i : ℕ)
    (ha : i < as.length) (hb : i < bs.length) :
    (List.zipWith f as bs).getD i 0 = f (as.getD i 0) (bs.getD i 0) := by
  induction as generalizing bs i with
  | nil => simp at ha
  | cons a as ih =>
    cases bs with
    | nil => simp at hb
    | cons b bs =>
      cases i with
      | zero => rfl
      | succ i =>
        simp only [List.zipWith_cons_cons, List.getD_cons_succ]
        exact ih bs i (by simpa using ha) (by simpa using hb)

/-- Entry `i` of a `causalMap` column under `getD`. -/
lemma causalMap_getD (f : List ℚ → ℚ) (xs : List ℚ) (i : ℕ) (h : i < xs.length) :
    (causalMap f xs).getD i 0 = f (xs.take (i + 1)) := by
  rw [List.getD_eq_getElem?_getD, causalMap_getElem? f xs i h]
  rfl

/-- The MACD column has one entry per candle. -/
lemma length_macdCol (xs : List ℚ) : (macdCol xs).length = xs.length := by
  unfold macdCol ema
  rw [List.length_zipWith, length_causalMap, length_causalMap]
  exact inf_idem _

/-- C6 counterexample: on the close series `[0, 1]`, entry 1 of the MACD
column of the source (pandas `ewm` with default `adjust=True`) is
`7/312`, while `EMA_fast - EMA_slow` computed with the recursive
first-value-seeded EMA the spec describes gives `28/351`; the source's
EMA is not that recursive EMA. -/
theorem macd_not_recursive_ema :
    (macdCol [0, 1]).getD 1 0 ≠
      (emaRecursive 12 [0, 1]).getD 1 0 - (emaRecursive 26 [0, 1]).getD 1 0 := by
  norm_num [macdCol, ema, causalMap, ewmK, emaRecursive, emaRecAux,
    List.range_succ]

/-- C6 amended: every entry of the MACD column equals
`EMA_fast - EMA_slow` with spans 12 and 26, and every entry of the MACD
signal column is the span-9 EMA of the MACD column, where each EMA is
pandas' `adjust=True` weighted mean with factor `alpha = 2/(span+1)`
(not the recursive smoothing seeded from the first value). -/
theorem macd_adjusted_ewm (xs : List ℚ) (i : ℕ) (h : i < xs.length) :
    (macdCol xs).getD i 0 = adjEma 12 xs i - adjEma 26 xs i ∧
    (macdSignalCol xs).getD i 0 = adjEma 9 (macdCol xs) i := by
  have hm : i < (macdCol xs).length := by rw [length_macdCol]; exact h
  constructor
  · unfold macdCol ema
    rw [getD_zipWith _ _ _ i (by rw [length_causalMap]; exact h)
      (by rw [length_causalMap]; exact h)]
    rw [causalMap_getD _ _ _ h, causalMap_getD _ _ _ h,
      ewmK_eq_adjEma 12 xs i h, ewmK_eq_adjEma 26 xs i h]
  · unfold macdSignalCol ema
    rw [causalMap_getD _ _ _ hm, ewmK_eq_adjEma 9 (macdCol xs) i hm]

/-- Witness for the amended C6 theorem at the concrete series `[0, 1]`,
index 1. -/
theorem macd_adjusted_ewm_w :
    1 < ([0, 1] : List ℚ).length ∧
      ((macdCol [0, 1]).getD 1 0 = adjEma 12 [0, 1] 1 - adjEma 26 [0, 1] 1 ∧
       (macdSignalCol [0, 1]).getD 1 0 = adjEma 9 (macdCol [0, 1]) 1) :=
  ⟨by decide, macd_adjusted_ewm [0, 1] 1 (by decide)⟩

/-!
RSI: bounds, saturation and the constant-price edge case.
-/

/-- Every entry of the gain series is nonnegative. -/
lemma gainSeries_nonneg (xs : List ℚ) : ∀ x ∈ gainSeries xs, 0 ≤ x := by
  intro x hx
  cases xs with
  | nil => simp [gainSeries] at hx
  | cons a t =>
    simp only [gainSeries, List.mem_cons, List.mem_map] at hx
    rcases hx with rfl | ⟨d, _, rfl⟩
    · exact le_refl 0
    · by_cases hd : 0 < d
      · rw [if_pos hd]; exact le_of_lt hd
      · rw [if_neg hd]

/-- Every entry of the loss series is nonnegative. -/
lemma lossSeries_nonneg (xs : List ℚ) : ∀ x ∈ lossSeries xs, 0 ≤ x := by
  intro x hx
  cases xs with
  | nil => simp [lossSeries] at hx
  | cons a t =>
    simp only [lossSeries, List.mem_cons, List.mem_map] at hx
    rcases hx with rfl | ⟨d, _, rfl⟩
    · exact le_refl 0
    · by_cases hd : d < 0
      · rw [if_pos hd]; linarith
      · rw [if_neg hd]

/-- Any defined value the RSI kernel produces lies in `[0, 100]`. -/
lemma rsiK_mem_Icc (period : ℕ) (p : List ℚ) (v : ℚ) (h : rsiK period p = some v) :
    0 ≤ v ∧ v ≤ 100 := by
  unfold rsiK at h
  by_cases hlen : p.length < period
  · rw [if_pos hlen] at h; exact absurd h (by simp)
  · rw [if_neg hlen] at h
    simp only at h
    set g := ((gainSeries p).drop (p.length - period)).sum / (period : ℚ) with hg
    set l := ((lossSeries p).drop (p.length - period)).sum / (period : ℚ) with hl
    have hg0 : 0 ≤ g := by
      apply div_nonneg _ (by positivity)
      exact List.sum_nonneg fun x hx => gainSeries_nonneg p x (List.drop_subset _ _ hx)
    have hl0 : 0 ≤ l := by
      apply div_nonneg _ (by positivity)
      exact List.sum_nonneg fun x hx => lossSeries_nonneg p x (List.drop_subset _ _ hx)
    by_cases hlz : l = 0
    · rw [if_pos hlz] at h
      by_cases hgz : g = 0
      · rw [if_pos hgz] at h; exact absurd h (by simp)
      · rw [if_neg hgz] at h
        cases h
        norm_num
    · rw [if_neg hlz] at h
      cases h
      have hlpos : 0 < l := lt_of_le_of_ne hl0 (Ne.symm hlz)
      have hr : 0 ≤ g / l := div_nonneg hg0 hl0
      have h1 : (0:ℚ) < 1 + g / l := by linarith
      have h2 : 100 / (1 + g / l) ≤ 100 := div_le_self (by norm_num) (by linarith)
      have h3 : 0 < 100 / (1 + g / l) := by positivity
      constructor <;> linarith

/-- When the rolling loss is zero and the rolling gain is positive, the
RSI kernel saturates at exactly 100. -/
lemma rsiK_saturates (period : ℕ) (p : List ℚ) (hper : 0 < period)
    (hlen : period ≤ p.length)
    (hloss : ((lossSeries p).drop (p.length - period)).sum = 0)
    (hgain : ((gainSeries p).drop (p.length - period)).sum ≠ 0) :
    rsiK period p = some 100 := by
  unfold rsiK
  rw [if_neg (not_lt_of_le hlen)]
  simp only
  rw [if_pos (by rw [hloss]; exact zero_div _)]
  rw [if_neg (div_ne_zero hgain (by positivity))]

/-- Per-step deltas of a constant list are all zero. -/
lemma zipWith_sub_shift_const (t : List ℚ) (c : ℚ) (h : ∀ x ∈ t, x = c) :
    List.zipWith (fun a b => a - b) t (c :: t) = List.replicate t.length 0 := by
  induction t generalizing c with
  | nil => rfl
  | cons x t ih =>
    have hx : x = c := h x (List.mem_cons_self x t)
    rw [List.zipWith_cons_cons, List.length_cons, List.replicate_succ]
    congr 1
    · rw [hx, sub_self]
    · exact ih x fun y hy => (h y (List.mem_cons_of_mem x hy)).trans hx.symm

/-- The delta series of a constant-price series is all zeros. -/
lemma deltas_replicate (m : ℕ) (c : ℚ) :
    deltas (List.replicate m c) = List.replicate (m - 1) 0 := by
  cases m with
  | zero => rfl
  | succ m =>
    unfold deltas
    rw [List.replicate_succ, Nat.add_sub_cancel]
    have hd : (c :: List.replicate m c).drop 1 = List.replicate m c := rfl
    rw [hd]
    have := zipWith_sub_shift_const (List.replicate m c) c
      (fun x hx => List.eq_of_mem_replicate hx)
    rw [List.length_replicate] at this
    exact this

/-- The gain series of a constant-price series is all zeros. -/
lemma gainSeries_replicate (m : ℕ) (c : ℚ) :
    gainSeries (List.replicate m c) = List.replicate m 0 := by
  cases m with
  | zero => rfl
  | succ m =>
    rw [List.replicate_succ]
    show 0 :: (deltas (c :: List.replicate m c)).map _ = _
    rw [← List.replicate_succ, deltas_replicate, Nat.add_sub_cancel,
      List.map_replicate]
    simp [List.replicate_succ]

/-- The loss series of a constant-price series is all zeros. -/
lemma lossSeries_replicate (m : ℕ) (c : ℚ) :
    lossSeries (List.replicate m c) = List.replicate m 0 := by
  cases m with
  | zero => rfl
  | succ m =>
    rw [List.replicate_succ]
    show 0 :: (deltas (c :: List.replicate m c)).map _ = _
    rw [← List.replicate_succ, deltas_replicate, Nat.add_sub_cancel,
      List.map_replicate]
    simp [List.replicate_succ]

/-- On a constant-price series with a full window, the RSI kernel hits
the `0/0` case of `rs = gain / loss` and the RSI is `NaN` (undefined),
not 100. -/
lemma rsiK_replicate_none (period m : ℕ) (c : ℚ) (h : period ≤ m) :
    rsiK period (List.replicate m c) = none := by
  unfold rsiK
  rw [List.length_replicate, if_neg (not_lt_of_le h)]
  simp [gainSeries_replicate, lossSeries_replicate, List.drop_replicate,
    List.sum_replicate]

/-- C3 counterexample: on the constant-price series of fourteen candles
at price 5, with the default 14-period RSI, the rolling average loss is
zero but the RSI entry is `NaN` (`rs = 0/0`), not the defined value 100:
the code has no explicit division-by-zero guard. -/
theorem rsi_constant_series_nan :
    ((calculate_indicators id P0 (List.replicate 14 5)).rsi)[13]? = some none ∧
    ((calculate_indicators id P0 (List.replicate 14 5)).rsi)[13]? ≠ some (some 100) := by
  have hcol : (calculate_indicators id P0 (List.replicate 14 5)).rsi
      = causalMap (rsiK P0.rsi_period) (List.replicate 14 5) := rfl
  have h13 : (13 : ℕ) < (List.replicate 14 (5 : ℚ)).length := by
    rw [List.length_replicate]; norm_num
  have hval : rsiK P0.rsi_period ((List.replicate 14 (5 : ℚ)).take (13 + 1)) = none := by
    rw [List.take_replicate]
    exact rsiK_replicate_none 14 (13 + 1 ⊓ 14) 5 (by norm_num)
  rw [hcol, causalMap_getElem? _ _ _ h13, hval]
  exact ⟨rfl, by simp⟩

/-- C3 amended: every defined RSI value the Indicator Engine produces
lies in `[0, 100]`; when the rolling average loss is zero and the
rolling average gain is positive the RSI saturates at exactly 100; but
when both are zero — in particular on any constant-price series with a
full window — the RSI is undefined (`NaN`), not 100. -/
theorem rsi_bounds_and_saturation (sq : ℚ → ℚ) (P : Params) (xs : List ℚ) :
    (∀ (i : ℕ) (v : ℚ), ((calculate_indicators sq P xs).rsi)[i]? = some (some v) → 0 ≤ v ∧ v ≤ 100) ∧
    (∀ p : List ℚ, 0 < P.rsi_period → P.rsi_period ≤ p.length →
      ((lossSeries p).drop (p.length - P.rsi_period)).sum = 0 →
      ((gainSeries p).drop (p.length - P.rsi_period)).sum ≠ 0 →
      rsiK P.rsi_period p = some 100) ∧
    (∀ (c : ℚ) (n i : ℕ), i < n → P.rsi_period ≤ i + 1 →
      ((calculate_indicators sq P (List.replicate n c)).rsi)[i]? = some none) := by
  refine ⟨?_, ?_, ?_⟩
  · intro i v h
    have hcol : (calculate_indicators sq P xs).rsi = causalMap (rsiK P.rsi_period) xs := rfl
    rw [hcol] at h
    have hi : i < xs.length := by
      rcases List.getElem?_eq_some.mp h with ⟨hlt, _⟩
      rwa [length_causalMap] at hlt
    rw [causalMap_getElem? _ _ _ hi] at h
    exact rsiK_mem_Icc P.rsi_period (xs.take (i + 1)) v (Option.some_injective _ h)
  · intro p hper hlen hloss hgain
    exact rsiK_saturates P.rsi_period p hper hlen hloss hgain
  · intro c n i hin hper
    have hcol : (calculate_indicators sq P (List.replicate n c)).rsi
        = causalMap (rsiK P.rsi_period) (List.replicate n c) := rfl
    have hi : i < (List.replicate n c).length := by rwa [List.length_replicate]
    rw [hcol, causalMap_getElem? _ _ _ hi, List.take_replicate,
      inf_eq_left.mpr (Nat.succ_le_of_lt hin)]
    rw [rsiK_replicate_none P.rsi_period (i + 1) c hper]

/-- Witness for the amended C3 theorem: with a 1-period RSI on the
rising series `[0, 1]`, the rolling loss is zero, the rolling gain is
one, and the saturation branch gives exactly 100. -/
theorem rsi_bounds_and_saturation_w :
    (0 < ({ P0 with rsi_period := 1 } : Params).rsi_period ∧
     ({ P0 with rsi_period := 1 } : Params).rsi_period ≤ ([0, 1] : List ℚ).length ∧
     ((lossSeries [0, 1]).drop
        (([0, 1] : List ℚ).length - ({ P0 with rsi_period := 1 } : Params).rsi_period)).sum = 0 ∧
     ((gainSeries [0, 1]).drop
        (([0, 1] : List ℚ).length - ({ P0 with rsi_period := 1 } : Params).rsi_period)).sum ≠ 0) ∧
    rsiK ({ P0 with rsi_period := 1 } : Params).rsi_period [0, 1] = some 100 :=
  ⟨⟨by norm_num [P0], by norm_num [P0],
    by norm_num [P0, lossSeries, deltas],
    by norm_num [P0, gainSeries, deltas]⟩,
   (rsi_bounds_and_saturation id { P0 with rsi_period := 1 } []).2.1 [0, 1]
     (by norm_num [P0]) (by norm_num [P0])
     (by norm_num [P0, lossSeries, deltas])
     (by norm_num [P0, gainSeries, deltas])⟩

/-!
Signal generator: warm-up guard and the voting rule.
-/

/-- C5: with fewer candles than `max(ma_long, rsi_period)`, the signal
generator returns HOLD unconditionally. -/
theorem insufficient_warmup_hold (P : Params) (df : List IndRow)
    (h : df.length < max P.ma_long P.rsi_period) :
    generate_signals P df = some Sig.HOLD := by
  unfold generate_signals
  rw [if_pos h]

/-- Witness for C5 on the empty frame with the default parameters. -/
theorem insufficient_warmup_hold_w :
    ([] : List IndRow).length < max P0.ma_long P0.rsi_period ∧
      generate_signals P0 [] = some Sig.HOLD :=
  ⟨by decide, insufficient_warmup_hold P0 [] (by decide)⟩

/-- The sell-vote counter is zero iff no sub-signal cast a sell vote. -/
lemma sellVotes_eq_zero_iff (P : Params) (l p : IndRow) :
    sellVotes P l p = 0 ↔
      (maVotes l p).2 = 0 ∧ (rsiVotes P l).2 = 0 ∧
      (macdVotes l p).2 = 0 ∧ (bbVotes l).2 = 0 := by
  unfold sellVotes
  omega

/-- The buy-vote counter is zero iff no sub-signal cast a buy vote. -/
lemma buyVotes_eq_zero_iff (P : Params) (l p : IndRow) :
    buyVotes P l p = 0 ↔
      (maVotes l p).1 = 0 ∧ (rsiVotes P l).1 = 0 ∧
      (macdVotes l p).1 = 0 ∧ (bbVotes l).1 = 0 := by
  unfold buyVotes
  omega

/-- The decision block returns BUY exactly on two buy votes with no
sell vote. -/
lemma decision_eq_BUY_iff (P : Params) (l p : IndRow) :
    decision P l p = Sig.BUY ↔ 2 ≤ buyVotes P l p ∧ sellVotes P l p = 0 := by
  unfold decision
  by_cases h1 : 2 ≤ buyVotes P l p ∧ sellVotes P l p = 0
  · simp [h1]
  · rw [if_neg h1]
    by_cases h2 : 2 ≤ sellVotes P l p ∧ buyVotes P l p = 0
    · rw [if_pos h2]
      exact iff_of_false (by simp) h1
    · rw [if_neg h2]
      exact iff_of_false (by simp) h1

/-- The decision block returns SELL exactly on two sell votes with no
buy vote. -/
lemma decision_eq_SELL_iff (P : Params) (l p : IndRow) :
    decision P l p = Sig.SELL ↔ 2 ≤ sellVotes P l p ∧ buyVotes P l p = 0 := by
  unfold decision
  by_cases h1 : 2 ≤ buyVotes P l p ∧ sellVotes P l p = 0
  · rw [if_pos h1]
    refine iff_of_false (by simp) ?_
    rintro ⟨hs, -⟩
    omega
  · rw [if_neg h1]
    by_cases h2 : 2 ≤ sellVotes P l p ∧ buyVotes P l p = 0
    · simp [h2]
    · rw [if_neg h2]
      exact iff_of_false (by simp) h2

/-- The decision block returns HOLD exactly when neither consensus
condition holds. -/
lemma decision_eq_HOLD_iff (P : Params) (l p : IndRow) :
    decision P l p = Sig.HOLD ↔
      ¬(2 ≤ buyVotes P l p ∧ sellVotes P l p = 0) ∧
      ¬(2 ≤ sellVotes P l p ∧ buyVotes P l p = 0) := by
  unfold decision
  by_cases h1 : 2 ≤ buyVotes P l p ∧ sellVotes P l p = 0
  · rw [if_pos h1]
    exact iff_of_false (by simp) (fun h => h.1 h1)
  · rw [if_neg h1]
    by_cases h2 : 2 ≤ sellVotes P l p ∧ buyVotes P l p = 0
    · rw [if_pos h2]
      exact iff_of_false (by simp) (fun h => h.2 h2)
    · rw [if_neg h2]
      exact iff_of_true rfl ⟨h1, h2⟩

/-- C1: on a frame with at least `max(ma_long, rsi_period)` candles
(written as any frame ending in a previous and a latest row), the
generator returns BUY iff the buy-vote count is at least 2 and the
sell-vote count is 0, SELL iff symmetrically, HOLD otherwise; and it
never returns BUY when any sell-vote sub-signal fired, nor SELL when
any buy-vote sub-signal fired. -/
theorem signal_votes_characterization (P : Params) (ys : List IndRow)
    (prev latest : IndRow)
    (hlen : max P.ma_long P.rsi_period ≤ (ys ++ [prev, latest]).length) :
    (generate_signals P (ys ++ [prev, latest]) = some Sig.BUY ↔
      2 ≤ buyVotes P latest prev ∧ sellVotes P latest prev = 0) ∧
    (generate_signals P (ys ++ [prev, latest]) = some Sig.SELL ↔
      2 ≤ sellVotes P latest prev ∧ buyVotes P latest prev = 0) ∧
    (generate_signals P (ys ++ [prev, latest]) = some Sig.HOLD ↔
      ¬(2 ≤ buyVotes P latest prev ∧ sellVotes P latest prev = 0) ∧
      ¬(2 ≤ sellVotes P latest prev ∧ buyVotes P latest prev = 0)) ∧
    (generate_signals P (ys ++ [prev, latest]) = some Sig.BUY →
      (maVotes latest prev).2 = 0 ∧ (rsiVotes P latest).2 = 0 ∧
      (macdVotes latest prev).2 = 0 ∧ (bbVotes latest).2 = 0) ∧
    (generate_signals P (ys ++ [prev, latest]) = some Sig.SELL →
      (maVotes latest prev).1 = 0 ∧ (rsiVotes P latest).1 = 0 ∧
      (macdVotes latest prev).1 = 0 ∧ (bbVotes latest).1 = 0) := by
  have hgs : generate_signals P (ys ++ [prev, latest]) = some (decision P latest prev) := by
    unfold generate_signals
    rw [if_neg (not_lt_of_le hlen), (last_two_of_append ys prev latest).1,
      (last_two_of_append ys prev latest).2]
  rw [hgs]
  refine ⟨?_, ?_, ?_, ?_, ?_⟩
  · rw [Option.some_inj]
    exact decision_eq_BUY_iff P latest prev
  · rw [Option.some_inj]
    exact decision_eq_SELL_iff P latest prev
  · rw [Option.some_inj]
    exact decision_eq_HOLD_iff P latest prev
  · intro h
    exact (sellVotes_eq_zero_iff P latest prev).mp
      ((decision_eq_BUY_iff P latest prev).mp (Option.some_inj.mp h)).2
  · intro h
    exact (buyVotes_eq_zero_iff P latest prev).mp
      ((decision_eq_SELL_iff P latest prev).mp (Option.some_inj.mp h)).2

/-- Witness for C1 on a 20-row frame of blank rows with the default
parameters. -/
theorem signal_votes_characterization_w :
    max P0.ma_long P0.rsi_period ≤ (List.replicate 18 rowZero ++ [rowZero, rowZero]).length ∧
    ((generate_signals P0 (List.replicate 18 rowZero ++ [rowZero, rowZero]) = some Sig.BUY ↔
        2 ≤ buyVotes P0 rowZero rowZero ∧ sellVotes P0 rowZero rowZero = 0) ∧
      (generate_signals P0 (List.replicate 18 rowZero ++ [rowZero, rowZero]) = some Sig.SELL ↔
        2 ≤ sellVotes P0 rowZero rowZero ∧ buyVotes P0 rowZero rowZero = 0) ∧
      (generate_signals P0 (List.replicate 18 rowZero ++ [rowZero, rowZero]) = some Sig.HOLD ↔
        ¬(2 ≤ buyVotes P0 rowZero rowZero ∧ sellVotes P0 rowZero rowZero = 0) ∧
        ¬(2 ≤ sellVotes P0 rowZero rowZero ∧ buyVotes P0 rowZero rowZero = 0)) ∧
      (generate_signals P0 (List.replicate 18 rowZero ++ [rowZero, rowZero]) = some Sig.BUY →
        (maVotes rowZero rowZero).2 = 0 ∧ (rsiVotes P0 rowZero).2 = 0 ∧
        (macdVotes rowZero rowZero).2 = 0 ∧ (bbVotes rowZero).2 = 0) ∧
      (generate_signals P0 (List.replicate 18 rowZero ++ [rowZero, rowZero]) = some Sig.SELL →
        (maVotes rowZero rowZero).1 = 0 ∧ (rsiVotes P0 rowZero).1 = 0 ∧
        (macdVotes rowZero rowZero).1 = 0 ∧ (bbVotes rowZero).1 = 0)) :=
  ⟨by decide,
   signal_votes_characterization P0 (List.replicate 18 rowZero) rowZero rowZero (by decide)⟩

/-!
Position manager: exit thresholds, check order, and behaviour on
rejected closing orders.
-/

/-- C2: the position manager closes a long exactly when the price is at
or below the stop-loss threshold or at or above the take-profit
threshold (emitting a closing sell for the position's quantity), closes
a short symmetrically with a closing buy, leaves the position untouched
otherwise, and evaluates the stop-loss test before the take-profit
test; with entry 100 and a 2 percent stop, price 97.9 closes the long
and price 98.1 does not. -/
theorem manage_position_close_rule (sl tp amt entry : ℚ) (ts : ℕ) (price : ℚ) (ok : Bool) :
    ((manage_position sl tp ok (some ⟨Side.buy, amt, entry, ts⟩) price).1 = none ↔
      price ≤ entry * (1 - sl) ∨ entry * (1 + tp) ≤ price) ∧
    (price ≤ entry * (1 - sl) ∨ entry * (1 + tp) ≤ price →
      (manage_position sl tp ok (some ⟨Side.buy, amt, entry, ts⟩) price).2.1
        = [(Side.sell, amt)]) ∧
    (¬(price ≤ entry * (1 - sl) ∨ entry * (1 + tp) ≤ price) →
      manage_position sl tp ok (some ⟨Side.buy, amt, entry, ts⟩) price
        = (some ⟨Side.buy, amt, entry, ts⟩, [], none)) ∧
    (price ≤ entry * (1 - sl) →
      (manage_position sl tp ok (some ⟨Side.buy, amt, entry, ts⟩) price).2.2
        = some Trigger.stopLoss) ∧
    ((manage_position sl tp ok (some ⟨Side.sell, amt, entry, ts⟩) price).1 = none ↔
      entry * (1 + sl) ≤ price ∨ price ≤ entry * (1 - tp)) ∧
    (entry * (1 + sl) ≤ price ∨ price ≤ entry * (1 - tp) →
      (manage_position sl tp ok (some ⟨Side.sell, amt, entry, ts⟩) price).2.1
        = [(Side.buy, amt)]) ∧
    (¬(entry * (1 + sl) ≤ price ∨ price ≤ entry * (1 - tp)) →
      manage_position sl tp ok (some ⟨Side.sell, amt, entry, ts⟩) price
        = (some ⟨Side.sell, amt, entry, ts⟩, [], none)) ∧
    (entry * (1 + sl) ≤ price →
      (manage_position sl tp ok (some ⟨Side.sell, amt, entry, ts⟩) price).2.2
        = some Trigger.stopLoss) ∧
    ((manage_position (2/100) (4/100) ok (some ⟨Side.buy, amt, 100, ts⟩) (979/10)).1
        = none) ∧
    ((manage_position (2/100) (4/100) ok (some ⟨Side.buy, amt, 100, ts⟩) (981/10)).1
        = some ⟨Side.buy, amt, 100, ts⟩) := by
  unfold manage_position
  simp only
  refine ⟨?_, ?_, ?_, ?_, ?_, ?_, ?_, ?_, ?_, ?_⟩
  · by_cases h1 : price ≤ entry * (1 - sl)
    · simp [h1]
    · by_cases h2 : entry * (1 + tp) ≤ price
      · simp [h1, h2]
      · simp [h1, h2]
  · rintro (h1 | h2)
    · simp [h1]
    · by_cases h1 : price ≤ entry * (1 - sl)
      · simp [h1]
      · simp [h1, h2]
  · intro h
    push_neg at h
    rw [if_neg (by linarith [h.1]), if_neg (by linarith [h.2])]
  · intro h1
    simp [h1]
  · by_cases h1 : entry * (1 + sl) ≤ price
    · simp [h1]
    · by_cases h2 : price ≤ entry * (1 - tp)
      · simp [h1, h2]
      · simp [h1, h2]
  · rintro (h1 | h2)
    · simp [h1]
    · by_cases h1 : entry * (1 + sl) ≤ price
      · simp [h1]
      · simp [h1, h2]
  · intro h
    push_neg at h
    rw [if_neg (by linarith [h.1]), if_neg (by linarith [h.2])]
  · intro h1
    simp [h1]
  · rw [if_pos (by norm_num)]
  · rw [if_neg (by norm_num), if_neg (by norm_num)]

/-- Witness for C2: the stop-loss branch at entry 100, stop 2 percent,
price 97.9 emits the closing sell order. -/
theorem manage_position_close_rule_w :
    ((979 : ℚ)/10 ≤ 100 * (1 - 2/100) ∨ (100 : ℚ) * (1 + 4/100) ≤ 979/10) ∧
    (manage_position (2/100) (4/100) true (some ⟨Side.buy, 1, 100, 0⟩) (979/10)).2.1
      = [(Side.sell, 1)] :=
  ⟨Or.inl (by norm_num),
   (manage_position_close_rule (2/100) (4/100) 1 100 0 (979/10) true).2.1
     (Or.inl (by norm_num))⟩

/-!
Strategy orchestrator: one cycle with no open position.
-/

/-- Unfolding of a `run_strategy` cycle that starts with no open
position: the position manager is a no-op, and the signal branch runs
on the generated signal. -/
lemma run_strategy_no_position (P : Params) (s : BotState) (frame : List IndRow)
    (lastRow : IndRow) (sig : Sig) (eo : Option OrderConf) (co : Bool) (now : ℕ)
    (hpos : s.position = none) (hlast : frame.getLast? = some lastRow)
    (hsig : generate_signals P frame = some sig) :
    run_strategy P s frame eo co now =
      if sig = Sig.BUY ∧ s.last_signal ≠ some Sig.BUY then
        ({ position := entryPos P Side.buy lastRow.close now eo,
           last_signal := some Sig.BUY }, [(Side.buy, P.trade_amount)])
      else if sig = Sig.SELL ∧ s.last_signal ≠ some Sig.SELL then
        ({ position := entryPos P Side.sell lastRow.close now eo,
           last_signal := some Sig.SELL }, [(Side.sell, P.trade_amount)])
      else if sig = Sig.HOLD then
        ({ position := none, last_signal := some Sig.HOLD }, ([] : List (Side × ℚ)))
      else
        ({ position := none, last_signal := s.last_signal }, ([] : List (Side × ℚ))) := by
  unfold run_strategy
  rw [hlast, hpos, hsig]
  simp only [manage_position, List.nil_append]

/-- A frame that produces a signal either has a last row or is empty
with the warm-up HOLD. -/
lemma getLast?_of_signal (P : Params) (frame : List IndRow) (sig : Sig)
    (hsig : generate_signals P frame = some sig) :
    (∃ lastRow, frame.getLast? = some lastRow) ∨ (frame = [] ∧ sig = Sig.HOLD) := by
  rcases List.eq_nil_or_concat frame with rfl | ⟨ys, lastRow, rfl⟩
  · right
    refine ⟨rfl, ?_⟩
    unfold generate_signals at hsig
    by_cases hm : ([] : List IndRow).length < max P.ma_long P.rsi_period
    · rw [if_pos hm] at hsig
      exact (Option.some_inj.mp hsig).symm
    · rw [if_neg hm] at hsig
      exact absurd hsig (by simp)
  · left
    exact ⟨lastRow, by rw [List.concat_eq_append, List.getLast?_concat]⟩

/-- C8: on a cycle with no open position, an entry order is requested
iff the generated signal is BUY or SELL and differs from the stored
`last_signal`; when the signal equals `last_signal`, no order is
requested and no position is opened. -/
theorem entry_order_anti_chatter (P : Params) (s : BotState) (frame : List IndRow)
    (eo : Option OrderConf) (co : Bool) (now : ℕ) (sig : Sig)
    (hpos : s.position = none) (hsig : generate_signals P frame = some sig) :
    ((run_strategy P s frame eo co now).2 ≠ [] ↔
      (sig = Sig.BUY ∨ sig = Sig.SELL) ∧ s.last_signal ≠ some sig) ∧
    (s.last_signal = some sig →
      (run_strategy P s frame eo co now).2 = [] ∧
      (run_strategy P s frame eo co now).1.position = none) := by
  rcases getLast?_of_signal P frame sig hsig with ⟨lastRow, hlast⟩ | ⟨rfl, rfl⟩
  · rw [run_strategy_no_position P s frame lastRow sig eo co now hpos hlast hsig]
    rcases sig with _ | _ | _
    · by_cases hl : s.last_signal = some Sig.BUY
      · simp [hl]
      · simp [hl]
    · by_cases hl : s.last_signal = some Sig.SELL
      · simp [hl]
      · simp [hl]
    · by_cases hl : s.last_signal = some Sig.HOLD
      · simp [hl]
      · simp [hl]
  · have hrun : run_strategy P s [] eo co now = (s, []) := rfl
    rw [hrun]
    simp [hpos]

/-- Witness for C8: a fresh bot state, an empty frame and the warm-up
HOLD signal. -/
theorem entry_order_anti_chatter_w :
    (({ position := none, last_signal := none } : BotState).position = none ∧
     generate_signals P0 [] = some Sig.HOLD) ∧
    (((run_strategy P0 { position := none, last_signal := none } [] none true 0).2 ≠ [] ↔
        (Sig.HOLD = Sig.BUY ∨ Sig.HOLD = Sig.SELL) ∧
        ({ position := none, last_signal := none } : BotState).last_signal ≠ some Sig.HOLD) ∧
      (({ position := none, last_signal := none } : BotState).last_signal = some Sig.HOLD →
        (run_strategy P0 { position := none, last_signal := none } [] none true 0).2 = [] ∧
        (run_strategy P0 { position := none, last_signal := none } [] none true 0).1.position
          = none)) :=
  ⟨⟨rfl, by decide⟩,
   entry_order_anti_chatter P0 { position := none, last_signal := none } [] none true 0
     Sig.HOLD rfl (by decide)⟩

/-- C9: when a BUY or SELL signal fires with no open position and the
entry order placement fails, `last_signal` is still updated to that
signal and no position exists; on a later cycle that generates the same
signal, no order is requested and no position is opened — the failed
entry is not retried while the signal stays the same. -/
theorem failed_entry_not_retried (P : Params) (s : BotState) (frame frame2 : List IndRow)
    (co co2 : Bool) (now now2 : ℕ) (eo2 : Option OrderConf) (sig : Sig)
    (hpos : s.position = none)
    (hbs : sig = Sig.BUY ∨ sig = Sig.SELL)
    (hsig : generate_signals P frame = some sig)
    (hlast : s.last_signal ≠ some sig)
    (hsig2 : generate_signals P frame2 = some sig) :
    (run_strategy P s frame none co now).1.last_signal = some sig ∧
    (run_strategy P s frame none co now).1.position = none ∧
    (run_strategy P (run_strategy P s frame none co now).1 frame2 eo2 co2 now2).2 = [] ∧
    (run_strategy P (run_strategy P s frame none co now).1 frame2 eo2 co2 now2).1.position
      = none := by
  obtain ⟨lastRow, hl1⟩ := (getLast?_of_signal P frame sig hsig).resolve_right
    (by rintro ⟨-, rfl⟩; rcases hbs with h | h <;> exact absurd h (by simp))
  obtain ⟨lastRow2, hl2⟩ := (getLast?_of_signal P frame2 sig hsig2).resolve_right
    (by rintro ⟨-, rfl⟩; rcases hbs with h | h <;> exact absurd h (by simp))
  have h1 := run_strategy_no_position P s frame lastRow sig none co now hpos hl1 hsig
  rcases hbs with rfl | rfl
  · rw [if_pos ⟨rfl, hlast⟩] at h1
    have hs1 : (run_strategy P s frame none co now).1
        = { position := none, last_signal := some Sig.BUY } := by
      rw [h1]
      rfl
    have h2 := run_strategy_no_position P
      { position := none, last_signal := some Sig.BUY } frame2 lastRow2 Sig.BUY
      eo2 co2 now2 rfl hl2 hsig2
    rw [if_neg (by simp), if_neg (by simp), if_neg (by simp)] at h2
    rw [hs1, h2]
    exact ⟨rfl, rfl, rfl, rfl⟩
  · rw [if_neg (by simp), if_pos ⟨rfl, hlast⟩] at h1
    have hs1 : (run_strategy P s frame none co now).1
        = { position := none, last_signal := some Sig.SELL } := by
      rw [h1]
      rfl
    have h2 := run_strategy_no_position P
      { position := none, last_signal := some Sig.SELL } frame2 lastRow2 Sig.SELL
      eo2 co2 now2 rfl hl2 hsig2
    rw [if_neg (by simp), if_neg (by simp), if_neg (by simp)] at h2
    rw [hs1, h2]
    exact ⟨rfl, rfl, rfl, rfl⟩

/-- The 20-row frame ending in `rowBuy` generates a BUY with the
default parameters. -/
lemma gen_signals_buy_frame :
    generate_signals P0 (List.replicate 18 rowZero ++ [rowZero, rowBuy]) = some Sig.BUY := by
  unfold generate_signals
  rw [if_neg (by decide), (last_two_of_append _ _ _).1, (last_two_of_append _ _ _).2]
  show some (decision P0 rowBuy rowZero) = some Sig.BUY
  have hd : decision P0 rowBuy rowZero = Sig.BUY := by
    norm_num [decision, buyVotes, sellVotes, maVotes, rsiVotes, macdVotes, bbVotes,
      oLt, oLe, oGt, oGe, rowZero, rowBuy, P0]
  rw [hd]

/-- Witness for C9: a fresh state, the BUY frame, a failed entry order,
then the same frame again on the next cycle. -/
theorem failed_entry_not_retried_w :
    (({ position := none, last_signal := none } : BotState).position = none ∧
     (Sig.BUY = Sig.BUY ∨ Sig.BUY = Sig.SELL) ∧
     generate_signals P0 (List.replicate 18 rowZero ++ [rowZero, rowBuy]) = some Sig.BUY ∧
     ({ position := none, last_signal := none } : BotState).last_signal ≠ some Sig.BUY) ∧
    ((run_strategy P0 { position := none, last_signal := none }
        (List.replicate 18 rowZero ++ [rowZero, rowBuy]) none true 0).1.last_signal
        = some Sig.BUY ∧
     (run_strategy P0 { position := none, last_signal := none }
        (List.replicate 18 rowZero ++ [rowZero, rowBuy]) none true 0).1.position = none ∧
     (run_strategy P0
        (run_strategy P0 { position := none, last_signal := none }
          (List.replicate 18 rowZero ++ [rowZero, rowBuy]) none true 0).1
        (List.replicate 18 rowZero ++ [rowZero, rowBuy]) none true 1).2 = [] ∧
     (run_strategy P0
        (run_strategy P0 { position := none, last_signal := none }
          (List.replicate 18 rowZero ++ [rowZero, rowBuy]) none true 0).1
        (List.replicate 18 rowZero ++ [rowZero, rowBuy]) none true 1).1.position = none) :=
  ⟨⟨rfl, Or.inl rfl, gen_signals_buy_frame, by simp⟩,
   failed_entry_not_retried P0 { position := none, last_signal := none }
     (List.replicate 18 rowZero ++ [rowZero, rowBuy])
     (List.replicate 18 rowZero ++ [rowZero, rowBuy]) true true 0 1 none Sig.BUY
     rfl (Or.inl rfl) gen_signals_buy_frame (by simp) gen_signals_buy_frame⟩

/-- A long position closes exactly when the price is at or beyond one
of its two thresholds. -/
lemma manage_long_closes_iff (sl tp : ℚ) (ok : Bool) (amt entry : ℚ) (ts : ℕ) (price : ℚ) :
    (manage_position sl tp ok (some ⟨Side.buy, amt, entry, ts⟩) price).1 = none ↔
      price ≤ entry * (1 - sl) ∨ entry * (1 + tp) ≤ price := by
  unfold manage_position
  by_cases h1 : price ≤ entry * (1 - sl)
  · simp [h1]
  · by_cases h2 : entry * (1 + tp) ≤ price
    · simp [h1, h2]
    · simp [h1, h2]

/-- A short position closes exactly when the price is at or beyond one
of its two thresholds. -/
lemma manage_short_closes_iff (sl tp : ℚ) (ok : Bool) (amt entry : ℚ) (ts : ℕ) (price : ℚ) :
    (manage_position sl tp ok (some ⟨Side.sell, amt, entry, ts⟩) price).1 = none ↔
      entry * (1 + sl) ≤ price ∨ price ≤ entry * (1 - tp) := by
  unfold manage_position
  by_cases h1 : entry * (1 + sl) ≤ price
  · simp [h1]
  · by_cases h2 : price ≤ entry * (1 - tp)
    · simp [h1, h2]
    · simp [h1, h2]

/-- C10: when an entry order succeeds, the recorded entry price is the
close of the last fetched candle — whatever fill price the order
confirmation carries — and every later stop-loss/take-profit test is
taken relative to that last close. -/
theorem entry_price_last_close (P : Params) (s : BotState) (frame : List IndRow)
    (co : Bool) (now : ℕ) (conf : OrderConf) (lastRow : IndRow) (sig : Sig)
    (hpos : s.position = none)
    (hlr : frame.getLast? = some lastRow)
    (hbs : sig = Sig.BUY ∨ sig = Sig.SELL)
    (hsig : generate_signals P frame = some sig)
    (hlast : s.last_signal ≠ some sig) :
    (run_strategy P s frame (some conf) co now).1.position =
      some { side := sideOf sig, amount := P.trade_amount,
             entry_price := lastRow.close, timestamp := now } ∧
    (∀ (price : ℚ) (ok : Bool),
      (manage_position P.stop_loss_pct P.take_profit_pct ok
          (run_strategy P s frame (some conf) co now).1.position price).1 = none ↔
        if sig = Sig.BUY then
          price ≤ lastRow.close * (1 - P.stop_loss_pct) ∨
            lastRow.close * (1 + P.take_profit_pct) ≤ price
        else
          lastRow.close * (1 + P.stop_loss_pct) ≤ price ∨
            price ≤ lastRow.close * (1 - P.take_profit_pct)) := by
  have h1 := run_strategy_no_position P s frame lastRow sig (some conf) co now hpos hlr hsig
  rcases hbs with rfl | rfl
  · rw [if_pos ⟨rfl, hlast⟩] at h1
    have hp : (run_strategy P s frame (some conf) co now).1.position =
        some { side := Side.buy, amount := P.trade_amount,
               entry_price := lastRow.close, timestamp := now } := by
      rw [h1]
      rfl
    refine ⟨hp, ?_⟩
    intro price ok
    rw [hp, if_pos rfl]
    exact manage_long_closes_iff P.stop_loss_pct P.take_profit_pct ok
      P.trade_amount lastRow.close now price
  · rw [if_neg (by simp), if_pos ⟨rfl, hlast⟩] at h1
    have hp : (run_strategy P s frame (some conf) co now).1.position =
        some { side := Side.sell, amount := P.trade_amount,
               entry_price := lastRow.close, timestamp := now } := by
      rw [h1]
      rfl
    refine ⟨hp, ?_⟩
    intro price ok
    rw [hp, if_neg (by simp)]
    exact manage_short_closes_iff P.stop_loss_pct P.take_profit_pct ok
      P.trade_amount lastRow.close now price

/-- Witness for C10: a confirmed entry order with fill price 12345
still records entry price 1 — the close of the last candle `rowBuy` —
and the stop-loss test at price 979/10 is taken against that close. -/
theorem entry_price_last_close_w :
    ((List.replicate 18 rowZero ++ [rowZero, rowBuy]).getLast? = some rowBuy ∧
     generate_signals P0 (List.replicate 18 rowZero ++ [rowZero, rowBuy]) = some Sig.BUY) ∧
    ((run_strategy P0 { position := none, last_signal := none }
        (List.replicate 18 rowZero ++ [rowZero, rowBuy]) (some { price := 12345 }) true 0).1.position
        = some { side := sideOf Sig.BUY, amount := P0.trade_amount,
                 entry_price := rowBuy.close, timestamp := 0 } ∧
     ((manage_position P0.stop_loss_pct P0.take_profit_pct true
         (run_strategy P0 { position := none, last_signal := none }
           (List.replicate 18 rowZero ++ [rowZero, rowBuy])
           (some { price := 12345 }) true 0).1.position (979/10)).1 = none ↔
       if Sig.BUY = Sig.BUY then
         (979 : ℚ)/10 ≤ rowBuy.close * (1 - P0.stop_loss_pct) ∨
           rowBuy.close * (1 + P0.take_profit_pct) ≤ 979/10
       else
         rowBuy.close * (1 + P0.stop_loss_pct) ≤ 979/10 ∨
           (979 : ℚ)/10 ≤ rowBuy.close * (1 - P0.take_profit_pct))) :=
  ⟨⟨(last_two_of_append _ _ _).1, gen_signals_buy_frame⟩,
   (entry_price_last_close P0 { position := none, last_signal := none }
      (List.replicate 18 rowZero ++ [rowZero, rowBuy]) true 0 { price := 12345 }
      rowBuy Sig.BUY rfl (last_two_of_append _ _ _).1 (Or.inl rfl)
      gen_signals_buy_frame (by simp)).1,
   (entry_price_last_close P0 { position := none, last_signal := none }
      (List.replicate 18 rowZero ++ [rowZero, rowBuy]) true 0 { price := 12345 }
      rowBuy Sig.BUY rfl (last_two_of_append _ _ _).1 (Or.inl rfl)
      gen_signals_buy_frame (by simp)).2 (979/10) true⟩

/-- C4 counterexample: a long at entry 100 with a 2 percent stop, price
97 and a REJECTED closing order (`place_order` returned the empty
dict): the closing sell is requested, the result is discarded, and the
position is cleared anyway — a rejected closing order does not leave
the position open. -/
theorem position_cleared_on_rejected_close :
    (manage_position (2/100) (4/100) false (some ⟨Side.buy, 1, 100, 0⟩) 97).1 = none ∧
    (manage_position (2/100) (4/100) false (some ⟨Side.buy, 1, 100, 0⟩) 97).2.1
      = [(Side.sell, 1)] := by
  have h : manage_position (2/100) (4/100) false (some ⟨Side.buy, 1, 100, 0⟩) 97
      = (none, [(Side.sell, 1)], some Trigger.stopLoss) := by
    simp only [manage_position]
    rw [if_pos (by norm_num)]
  rw [h]
  exact ⟨rfl, rfl⟩

/-- C4 amended: a Position is created only when the entry order is
confirmed placed (a failed entry leaves no position, a confirmed one
creates it), but an open Position is cleared whenever a stop-loss or a
take-profit triggers, on a long or on a short, whatever the closing
order's outcome — in particular also when the closing order is
rejected. -/
theorem position_mutation_on_order_outcome (P : Params) (s : BotState) (frame : List IndRow)
    (co : Bool) (now : ℕ) (sig : Sig)
    (hpos : s.position = none)
    (hbs : sig = Sig.BUY ∨ sig = Sig.SELL)
    (hsig : generate_signals P frame = some sig)
    (hlast : s.last_signal ≠ some sig) :
    (run_strategy P s frame none co now).1.position = none ∧
    (∀ conf : OrderConf, (run_strategy P s frame (some conf) co now).1.position ≠ none) ∧
    (∀ (sl tp amt entry : ℚ) (ts : ℕ) (price : ℚ) (ok : Bool),
      (price ≤ entry * (1 - sl) ∨ entry * (1 + tp) ≤ price →
        (manage_position sl tp ok (some ⟨Side.buy, amt, entry, ts⟩) price).1 = none) ∧
      (entry * (1 + sl) ≤ price ∨ price ≤ entry * (1 - tp) →
        (manage_position sl tp ok (some ⟨Side.sell, amt, entry, ts⟩) price).1 = none)) := by
  obtain ⟨lastRow, hl1⟩ := (getLast?_of_signal P frame sig hsig).resolve_right
    (by rintro ⟨-, rfl⟩; rcases hbs with h | h <;> exact absurd h (by simp))
  refine ⟨?_, ?_, ?_⟩
  · have h1 := run_strategy_no_position P s frame lastRow sig none co now hpos hl1 hsig
    rcases hbs with rfl | rfl
    · rw [if_pos ⟨rfl, hlast⟩] at h1
      rw [h1]
      rfl
    · rw [if_neg (by simp), if_pos ⟨rfl, hlast⟩] at h1
      rw [h1]
      rfl
  · intro conf
    have h1 := run_strategy_no_position P s frame lastRow sig (some conf) co now hpos hl1 hsig
    rcases hbs with rfl | rfl
    · rw [if_pos ⟨rfl, hlast⟩] at h1
      rw [h1]
      simp [entryPos]
    · rw [if_neg (by simp), if_pos ⟨rfl, hlast⟩] at h1
      rw [h1]
      simp [entryPos]
  · intro sl tp amt entry ts price ok
    exact ⟨fun h => (manage_long_closes_iff sl tp ok amt entry ts price).mpr h,
           fun h => (manage_short_closes_iff sl tp ok amt entry ts price).mpr h⟩

/-- Witness for the amended C4 theorem: fresh state, the BUY frame, a
failed then a confirmed entry, and two rejected closes — a long
stop-loss at 97 and a short stop-loss at 103, both at entry 100. -/
theorem position_mutation_on_order_outcome_w :
    (({ position := none, last_signal := none } : BotState).position = none ∧
     (Sig.BUY = Sig.BUY ∨ Sig.BUY = Sig.SELL) ∧
     generate_signals P0 (List.replicate 18 rowZero ++ [rowZero, rowBuy]) = some Sig.BUY ∧
     ({ position := none, last_signal := none } : BotState).last_signal ≠ some Sig.BUY ∧
     ((97 : ℚ) ≤ 100 * (1 - 2/100) ∨ (100 : ℚ) * (1 + 4/100) ≤ 97) ∧
     ((100 : ℚ) * (1 + 2/100) ≤ 103 ∨ (103 : ℚ) ≤ 100 * (1 - 4/100))) ∧
    ((run_strategy P0 { position := none, last_signal := none }
        (List.replicate 18 rowZero ++ [rowZero, rowBuy]) none true 0).1.position = none ∧
     (run_strategy P0 { position := none, last_signal := none }
        (List.replicate 18 rowZero ++ [rowZero, rowBuy])
        (some { price := 12345 }) true 0).1.position ≠ none ∧
     (manage_position (2/100) (4/100) false (some ⟨Side.buy, 1, 100, 0⟩) 97).1 = none ∧
     (manage_position (2/100) (4/100) false (some ⟨Side.sell, 1, 100, 0⟩) 103).1 = none) :=
  ⟨⟨rfl, Or.inl rfl, gen_signals_buy_frame, by simp,
    Or.inl (by norm_num), Or.inl (by norm_num)⟩,
   (position_mutation_on_order_outcome P0 { position := none, last_signal := none }
      (List.replicate 18 rowZero ++ [rowZero, rowBuy]) true 0 Sig.BUY
      rfl (Or.inl rfl) gen_signals_buy_frame (by simp)).1,
   (position_mutation_on_order_outcome P0 { position := none, last_signal := none }
      (List.replicate 18 rowZero ++ [rowZero, rowBuy]) true 0 Sig.BUY
      rfl (Or.inl rfl) gen_signals_buy_frame (by simp)).2.1 { price := 12345 },
   ((position_mutation_on_order_outcome P0 { position := none, last_signal := none }
      (List.replicate 18 rowZero ++ [rowZero, rowBuy]) true 0 Sig.BUY
      rfl (Or.inl rfl) gen_signals_buy_frame (by simp)).2.2 (2/100) (4/100) 1 100 0 97
     false).1 (Or.inl (by norm_num)),
   ((position_mutation_on_order_outcome P0 { position := none, last_signal := none }
      (List.replicate 18 rowZero ++ [rowZero, rowBuy]) true 0 Sig.BUY
      rfl (Or.inl rfl) gen_signals_buy_frame (by simp)).2.2 (2/100) (4/100) 1 100 0 103
     false).2 (Or.inl (by norm_num))⟩
